import Mathlib

/-!
# Verification of the gateway's registry, load-balancer and health-monitor core

Shallow embedding of the routing/health/indexing core of the gateway
(`src/services/serverManager.js`, `src/services/loadBalancer.js`,
`src/services/healthMonitor.js`, `src/controllers/apiController.js`,
`src/utils/cache.js`).  Timestamps are modelled as natural numbers, the
outcome of each outbound HTTP call is supplied as an explicit parameter
(an oracle), and the mutable registry / session index / TTL cache are an
explicit `GatewayState` threaded through each operation.
-/

namespace Gateway

/-- Backend status, `CONFIG.STATUS` in `config/constants.js`. -/
inductive Status where
  | healthy
  | full
  | unhealthy
deriving DecidableEq, Repr

/-- One entry of an upstream `{ sessions: [...] }` payload: the gateway
accepts either an `id` or a `sessionId` field (`session.id || session.sessionId`). -/
structure SessionObj where
  id : Option String
  sessionId : Option String
deriving DecidableEq, Repr

/-- `s.id || s.sessionId`: the normalized session identifier of an upstream
session object (`none` when both fields are absent). -/
def sessObjId (s : SessionObj) : Option String :=
  match s.id with
  | some v => some v
  | none => s.sessionId

/-- Per-backend counters, the `metadata` object created in `initializeServers`. -/
structure Metadata where
  createdAt : Nat
  healthChecks : Nat
  failures : Nat
  deletedSessions : Nat
deriving DecidableEq, Repr

/-- One backend record of the server registry (`serverManager.js`,
`initializeServers`).  `sessions` holds the normalized ids last observed
(`sessions.map(s => s.id || s.sessionId)`, entries may be undefined, hence
`Option String`).  `sessionsList` is the extra field written by the health
monitor's patch (`sessionsList: sessions`), absent until the first probe.
`errorMsg` is the `error` field written by failure patches. -/
structure Server where
  id : String
  url : String
  status : Status
  sessionCount : Nat
  lastChecked : Option Nat
  responseTime : Nat
  isActive : Bool
  sessions : List (Option String)
  sessionsList : Option (List SessionObj)
  errorMsg : Option String
  metadata : Metadata
deriving DecidableEq, Repr

/-- Environment-driven configuration (`config/constants.js`); the default
values are the source defaults. -/
structure Config where
  maxSessionsPerServer : Nat := 25
  requestTimeout : Nat := 5000
  healthCheckInterval : Nat := 10000
  sessionCacheTTL : Nat := 5000
  maxRetries : Nat := 3
  retryDelay : Nat := 1000
deriving Repr

/-- The TTL cache (`utils/cache.js`): key to (value, expiry).  The only
values cached by the core are session counts, so values are `Nat`. -/
abbrev Cache := List (String × Nat × Nat)

/-- `cache.set(key, value, ttl)`: store with expiry `now + ttl`
(replace an existing key, else append). -/
def cacheSet (c : Cache) (k : String) (v : Nat) (ttl now : Nat) : Cache :=
  if c.any (fun p => decide (p.1 = k)) then
    c.map (fun p => if p.1 = k then (k, v, now + ttl) else p)
  else
    c ++ [(k, v, now + ttl)]

/-- `cache.get(key)`: lazy expiration; a read past the expiry deletes the
entry and returns absent.  Returns the value (if fresh) and the possibly
shrunk store. -/
def cacheGet (c : Cache) (k : String) (now : Nat) : Option Nat × Cache :=
  match c.find? (fun p => decide (p.1 = k)) with
  | none => (none, c)
  | some (_, v, expiry) =>
      if now > expiry then (none, c.filter (fun p => decide (p.1 ≠ k)))
      else (some v, c)

/-- `cache.delete(key)`. -/
def cacheDelete (c : Cache) (k : String) : Cache :=
  c.filter (fun p => decide (p.1 ≠ k))

/-- The session index, a JS `Map sessionId -> serverId` modelled as an
association list in insertion order. -/
abbrev SessionMap := List (String × String)

/-- JS `Map.get`. -/
def mapGet (m : SessionMap) (k : String) : Option String :=
  (m.find? (fun p => decide (p.1 = k))).map (·.2)

/-- JS `Map.set`: replace in place if the key exists, else append. -/
def mapSet (m : SessionMap) (k v : String) : SessionMap :=
  if m.any (fun p => decide (p.1 = k)) then
    m.map (fun p => if p.1 = k then (k, v) else p)
  else
    m ++ [(k, v)]

/-- JS `Map.delete`. -/
def mapDelete (m : SessionMap) (k : String) : SessionMap :=
  m.filter (fun p => decide (p.1 ≠ k))

/-- The whole mutable state of the core: the server registry (a JS `Map`
in insertion order), the session index, the TTL cache, and the current
clock used for every `new Date()` / `Date.now()` read. -/
structure GatewayState where
  servers : List Server
  sessionMap : SessionMap
  cache : Cache
  now : Nat
deriving DecidableEq, Repr

/-- A fresh backend record as built by `initializeServers`. -/
def initServer (idx : Nat) (url : String) (now : Nat) : Server :=
  { id := "server-" ++ toString (idx + 1)
    url := url
    status := .healthy
    sessionCount := 0
    lastChecked := none
    responseTime := 0
    isActive := true
    sessions := []
    sessionsList := none
    errorMsg := none
    metadata := { createdAt := now, healthChecks := 0, failures := 0, deletedSessions := 0 } }

/-- `ServerManager` construction: registry built positionally from the
configured URL list, empty session index, empty cache. -/
def initializeServers (urls : List String) (now : Nat) : GatewayState :=
  { servers := urls.enum.map (fun p => initServer p.1 p.2 now)
    sessionMap := []
    cache := []
    now := now }

/-- `getAllServers()`. -/
def getAllServers (st : GatewayState) : List Server :=
  st.servers

/-- `getActiveServers()`: status HEALTHY and `isActive`. -/
def getActiveServers (st : GatewayState) : List Server :=
  st.servers.filter (fun s => decide (s.status = .healthy) && s.isActive)

/-- `getServer(serverId)`. -/
def getServer (st : GatewayState) (serverId : String) : Option Server :=
  st.servers.find? (fun s => decide (s.id = serverId))

/-- The optional-field patch object passed to `updateServerStatus`
(`data`).  The call sites pass subsets of `sessionCount`, `responseTime`,
`error`, `lastChecked` and `sessionsList`; `Object.assign` overwrites
exactly the fields present. -/
structure Patch where
  sessionCount : Option Nat := none
  responseTime : Option Nat := none
  errorMsg : Option String := none
  lastChecked : Option Nat := none
  sessionsList : Option (List SessionObj) := none
deriving DecidableEq, Repr

/-- `Object.assign(server, data)` for the patch fields above. -/
def applyPatch (s : Server) (p : Patch) : Server :=
  { s with
    sessionCount := p.sessionCount.getD s.sessionCount
    responseTime := p.responseTime.getD s.responseTime
    errorMsg := match p.errorMsg with | some e => some e | none => s.errorMsg
    lastChecked := match p.lastChecked with | some t => some t | none => s.lastChecked
    sessionsList := match p.sessionsList with | some l => some l | none => s.sessionsList }

/-- The status/counter part of `updateServerStatus` applied to the found
server: set the status, stamp `lastChecked`, bump `healthChecks`, then
the status-dependent `failures` / `isActive` bookkeeping. -/
def statusUpdate (s : Server) (status : Status) (now : Nat) : Server :=
  let s1 := { s with
    status := status
    lastChecked := some now
    metadata := { s.metadata with healthChecks := s.metadata.healthChecks + 1 } }
  match status with
  | .unhealthy =>
      { s1 with
        metadata := { s1.metadata with failures := s1.metadata.failures + 1 }
        isActive := false }
  | .full => { s1 with isActive := false }
  | .healthy => { s1 with isActive := true }

/-- `updateServerStatus(serverId, status, data)`: no-op when the id is
unknown; otherwise update the record and invalidate the backend's
session-count cache entry. -/
def updateServerStatus (st : GatewayState) (serverId : String) (status : Status)
    (p : Patch) : GatewayState :=
  match st.servers.find? (fun s => decide (s.id = serverId)) with
  | none => st
  | some _ =>
      { st with
        servers := st.servers.map (fun s =>
          if s.id = serverId then applyPatch (statusUpdate s status st.now) p else s)
        cache := cacheDelete st.cache ("sessions_" ++ serverId) }

/-- `resetServer(serverId)`: force status HEALTHY and `isActive`; no-op
when the id is unknown. -/
def resetServer (st : GatewayState) (serverId : String) : GatewayState :=
  match st.servers.find? (fun s => decide (s.id = serverId)) with
  | none => st
  | some _ =>
      { st with
        servers := st.servers.map (fun s =>
          if s.id = serverId then { s with status := .healthy, isActive := true } else s) }

/-- `ApiController.resetServer`: calls `serverManager.resetServer` (which
never throws) and answers `{ ok: true }` with HTTP 200. -/
def apiResetServer (st : GatewayState) (serverId : String) :
    GatewayState × Nat × Bool :=
  (resetServer st serverId, 200, true)

/-- Point update of one backend's `sessions` field
(`server.sessions = sessions.map(s => s.id || s.sessionId)`). -/
def setServerSessions (st : GatewayState) (serverId : String)
    (ids : List (Option String)) : GatewayState :=
  { st with
    servers := st.servers.map (fun s =>
      if s.id = serverId then { s with sessions := ids } else s) }

/-- Outcome of one outbound `GET <url>/sessions` call, supplied as an
explicit parameter.  `response` is an HTTP response carrying the parsed
`sessions` array (`response.data?.sessions || []`) and the extra `duration`
read by the caller (`response.duration`, normally absent); `connFailure`
is a transport error whose code is `ECONNREFUSED`/`ETIMEDOUT` (the kinds
that drive the backend UNHEALTHY); `otherFailure` any other raised error. -/
inductive ProbeOutcome where
  | response (status : Nat) (sessions : List SessionObj) (duration : Option Nat)
  | connFailure (msg : String)
  | otherFailure (msg : String)
deriving DecidableEq, Repr

/-- `getServerSessionCount(serverId)` as a state transformer; the second
component is `some count` on normal return and `none` when the call threw
(unknown id or probe failure).  Mirrors the source order: cache read with
lazy expiration, registry lookup, probe, refresh of `sessions` and of the
session index, `cache.set`, then `updateServerStatus` with the current
status (which in turn deletes the cache entry just written). -/
def getServerSessionCount (st : GatewayState) (serverId : String)
    (cfg : Config) (probe : ProbeOutcome) : GatewayState × Option Nat :=
  let key := "sessions_" ++ serverId
  match cacheGet st.cache key st.now with
  | (some cached, cache1) => ({ st with cache := cache1 }, some cached)
  | (none, cache1) =>
      let st1 := { st with cache := cache1 }
      match getServer st1 serverId with
      | none => (st1, none)
      | some server =>
          match probe with
          | .response _ sessions duration =>
              let sessionCount := sessions.length
              let st2 := setServerSessions st1 serverId (sessions.map sessObjId)
              let st3 := { st2 with
                sessionMap := sessions.foldl (fun m sess =>
                  match sessObjId sess with
                  | some sid => mapSet m sid serverId
                  | none => m) st2.sessionMap }
              let st4 := { st3 with
                cache := cacheSet st3.cache key sessionCount cfg.sessionCacheTTL st3.now }
              let st5 := updateServerStatus st4 serverId server.status
                { sessionCount := some sessionCount
                  responseTime := some (duration.getD 0) }
              (st5, some sessionCount)
          | .connFailure msg =>
              (updateServerStatus st1 serverId .unhealthy { errorMsg := some msg }, none)
          | .otherFailure _ => (st1, none)

/-- Result of `findSessionServer`: the id of the backend reported as
holding the session and the `cached` flag of the returned object. -/
structure FindResult where
  serverId : String
  cached : Bool
deriving DecidableEq, Repr

/-- Whether the probed session list contains the session
(`sessions.some(s => s.id === sessionId || s.sessionId === sessionId)`). -/
def sessionExists (sessions : List SessionObj) (sid : String) : Bool :=
  sessions.any (fun s => decide (s.id = some sid) || decide (s.sessionId = some sid))

/-- The `for (const server of servers)` loop of `findSessionServer`,
iterating over the ids of the snapshot taken at entry: for each backend,
first the in-memory `sessions` check, then the `/sessions` probe (which
refreshes that backend's `sessions` and, on a match, the index); any probe
failure continues with the next backend.  `probe` maps a backend id to its
probe result (`none` = the HTTP call threw). -/
def findLoop (st : GatewayState) (probe : String → Option (List SessionObj))
    (sid : String) : List String → GatewayState × Option FindResult
  | [] => (st, none)
  | srvId :: rest =>
      match getServer st srvId with
      | none => findLoop st probe sid rest
      | some server =>
          if (some sid) ∈ server.sessions then
            ({ st with sessionMap := mapSet st.sessionMap sid server.id },
              some { serverId := server.id, cached := true })
          else
            match probe server.id with
            | none => findLoop st probe sid rest
            | some sessions =>
                let st1 := setServerSessions st server.id (sessions.map sessObjId)
                if sessionExists sessions sid then
                  ({ st1 with sessionMap := mapSet st1.sessionMap sid server.id },
                    some { serverId := server.id, cached := false })
                else findLoop st1 probe sid rest

/-- `findSessionServer(sessionId)`: the session-index hint first (returned
with `cached = true` when it names a known backend), else the per-backend
loop above; `none` when no backend reports the session. -/
def findSessionServer (st : GatewayState) (probe : String → Option (List SessionObj))
    (sid : String) : GatewayState × Option FindResult :=
  match mapGet st.sessionMap sid with
  | some cachedId =>
      match getServer st cachedId with
      | some server => (st, some { serverId := server.id, cached := true })
      | none => findLoop st probe sid (st.servers.map (·.id))
  | none => findLoop st probe sid (st.servers.map (·.id))

/-- Outcome of the `POST <url>/logout/<sessionId>` call. -/
inductive LogoutOutcome where
  | success
  | err404
  | errOther
deriving DecidableEq, Repr

/-- Result surfaced by `deleteSessionFromServer`. -/
inductive DeleteResult where
  | ok (newSessionCount : Nat)
  | raised404
  | raisedOther
  | raisedNoServer
deriving DecidableEq, Repr

/-- `deleteSessionFromServer(serverId, sessionId)` given the logout
outcome.  Success: bump `deletedSessions`, drop the index entry, drop the
session from the backend's `sessions`, decrement `sessionCount` when
positive, invalidate the backend's session-count cache.  A backend 404
still cleans the index entry and the `sessions` list, then rethrows.  Any
other failure rethrows with local state intact.  An unknown id throws
before the HTTP call. -/
def deleteSessionFromServer (st : GatewayState) (serverId sid : String)
    (outcome : LogoutOutcome) : GatewayState × DeleteResult :=
  match getServer st serverId with
  | none => (st, .raisedNoServer)
  | some _ =>
      match outcome with
      | .success =>
          let st1 := { st with
            servers := st.servers.map (fun s =>
              if s.id = serverId then
                { s with
                  metadata := { s.metadata with
                    deletedSessions := s.metadata.deletedSessions + 1 }
                  sessions := s.sessions.filter (fun x => decide (x ≠ some sid))
                  sessionCount :=
                    if s.sessionCount > 0 then s.sessionCount - 1 else s.sessionCount }
              else s)
            sessionMap := mapDelete st.sessionMap sid
            cache := cacheDelete st.cache ("sessions_" ++ serverId) }
          let newCount := ((getServer st1 serverId).map Server.sessionCount).getD 0
          (st1, .ok newCount)
      | .err404 =>
          ({ st with
            servers := st.servers.map (fun s =>
              if s.id = serverId then
                { s with sessions := s.sessions.filter (fun x => decide (x ≠ some sid)) }
              else s)
            sessionMap := mapDelete st.sessionMap sid }, .raised404)
      | .errOther => (st, .raisedOther)

/-- The authoritative sessions each backend actually holds, used to decide
logout outcomes for the idempotence law: the upstream contract is 2xx when
the session exists (removing it) and 404 when it does not. -/
abbrev World := List (String × List String)

/-- Upstream handling of `POST /logout/<sid>` against backend `serverId`. -/
def worldLogout (w : World) (serverId sid : String) : LogoutOutcome × World :=
  match w.find? (fun p => decide (p.1 = serverId)) with
  | none => (.err404, w)
  | some (_, sessions) =>
      if sid ∈ sessions then
        (.success, w.map (fun p =>
          if p.1 = serverId then (p.1, p.2.filter (fun x => decide (x ≠ sid))) else p))
      else (.err404, w)

/-- `deleteSessionFromServer` driven by the upstream contract. -/
def deleteViaWorld (st : GatewayState) (w : World) (serverId sid : String) :
    GatewayState × World × DeleteResult :=
  let (outcome, w1) := worldLogout w serverId sid
  let (st1, r) := deleteSessionFromServer st serverId sid outcome
  (st1, w1, r)

/-- `HealthMonitor.checkServerHealth(server)` for one backend, given the
probe outcome: on HTTP 200 compute FULL/HEALTHY from the session count and
patch `sessionCount`, `lastChecked`, `responseTime` and `sessionsList`;
any non-200 status or transport failure updates to UNHEALTHY with the
error captured. -/
def checkServerHealth (st : GatewayState) (serverId : String) (cfg : Config)
    (outcome : ProbeOutcome) : GatewayState :=
  match outcome with
  | .response status sessions duration =>
      if status = 200 then
        let sessionCount := sessions.length
        let newStatus : Status :=
          if sessionCount ≥ cfg.maxSessionsPerServer then .full else .healthy
        updateServerStatus st serverId newStatus
          { sessionCount := some sessionCount
            lastChecked := some st.now
            responseTime := some (duration.getD 0)
            sessionsList := some sessions }
      else
        updateServerStatus st serverId .unhealthy
          { errorMsg := some ("HTTP " ++ toString status)
            lastChecked := some st.now }
  | .connFailure msg =>
      updateServerStatus st serverId .unhealthy
        { errorMsg := some msg, lastChecked := some st.now }
  | .otherFailure msg =>
      updateServerStatus st serverId .unhealthy
        { errorMsg := some msg, lastChecked := some st.now }

/-- Selection failure classes thrown by `selectOptimalServer`. -/
inductive SelectError where
  | allFull
  | allUnavailable
  | noActiveServers
deriving DecidableEq, Repr

/-- `Math.min(...)` over a non-empty count list, as a fold. -/
def listMin (v : Nat) (vs : List Nat) : Nat :=
  vs.foldl min v

/-- `LoadBalancer.selectOptimalServer()`.  The per-backend
`getServerSessionCount` results are supplied by `counts` (`none` models a
rejected call, which the source turns into `Infinity`, i.e. the backend is
dropped by the `< MAX_SESSIONS_PER_SERVER` filter).  `rr` is the
round-robin cursor; the result carries the selected server and the new
cursor. -/
def selectOptimalServer (servers : List Server) (counts : String → Option Nat)
    (cfg : Config) (rr : Nat) : Except SelectError (Server × Nat) :=
  let activeServers := servers.filter (fun s => decide (s.status = .healthy) && s.isActive)
  if activeServers.isEmpty then
    if (servers.filter (fun s => decide (s.status = .full))).length = servers.length
        ∧ servers.length > 0 then
      .error .allFull
    else if (servers.filter (fun s => decide (s.status = .unhealthy))).length = servers.length
        ∧ servers.length > 0 then
      .error .allUnavailable
    else
      .error .noActiveServers
  else
    let serversWithSessions := activeServers.map (fun s => (s, counts s.id))
    let availableServers := serversWithSessions.filter (fun p =>
      match p.2 with
      | some c => decide (c < cfg.maxSessionsPerServer)
      | none => false)
    match availableServers with
    | [] => .error .allFull
    | a :: rest =>
        let minSessions := listMin (a.2.getD 0) (rest.map (fun p => p.2.getD 0))
        let leastLoaded := (a :: rest).filter (fun p => decide (p.2 = some minSessions))
        match leastLoaded with
        | [] => .error .allFull
        | b :: lrest =>
            if (b :: lrest).length > 1 then
              let rr1 := (rr + 1) % (b :: lrest).length
              .ok (((b :: lrest).getD rr1 b).1, rr1)
            else
              .ok (b.1, rr)

/-- `n` consecutive `selectOptimalServer()` calls with no state change in
between: only the round-robin cursor is threaded; the selected servers are
collected in order.  A selection failure stops the run. -/
def selectRun (servers : List Server) (counts : String → Option Nat)
    (cfg : Config) : Nat → Nat → List Server × Nat
  | rr, 0 => ([], rr)
  | rr, n + 1 =>
      match selectOptimalServer servers counts cfg rr with
      | .ok (srv, rr1) =>
          let rec1 := selectRun servers counts cfg rr1 n
          (srv :: rec1.1, rec1.2)
      | .error _ => ([], rr)

/-- Transport error classes raised by the HTTP client
(`error.code` strings in the source). -/
inductive TransportError where
  | connRefused
  | timedOut
  | connAborted
  | other
deriving DecidableEq, Repr

/-- Body of an upstream pair response as read by the controller: the
JS-truthiness of `data`, `data.error`, `data.ok`, and the two possible
session-identifier fields. -/
structure UpstreamBody where
  ok : Bool
  errorField : Option String
  sessionId : Option String
  cleanNumber : Option String
deriving DecidableEq, Repr

/-- The `{ data, status }` pair `forwardRequest` resolves with on any HTTP
response (all status codes accepted by `validateStatus`); `body = none`
models a falsy `response.data`. -/
structure HttpResp where
  status : Nat
  body : Option UpstreamBody
deriving DecidableEq, Repr

/-- `LoadBalancer.forwardRequest(req, server, retries)` retry skeleton.
`attemptAt r` is the outcome of the upstream attempt issued with `retries
= r` (each recursion depth performs exactly one attempt); `reselect r` is
the result of the `selectOptimalServer()` call made before the attempt at
depth `r` (`none` = the reselection threw, in which case the original
error is rethrown).  The second component counts the upstream HTTP
attempts issued by the whole call. -/
def forwardRequest (cfg : Config) (attemptAt : Nat → Except TransportError HttpResp)
    (reselect : Nat → Option Server) (server : Server) (retries : Nat) :
    Except TransportError HttpResp × Nat :=
  match attemptAt retries with
  | .ok resp => (.ok resp, 1)
  | .error e =>
      if h : retries < cfg.maxRetries then
        match reselect (retries + 1) with
        | some newServer =>
            let rec1 := forwardRequest cfg attemptAt reselect newServer (retries + 1)
            (rec1.1, rec1.2 + 1)
        | none => (.error e, 1)
      else
        (.error e, 1)
termination_by cfg.maxRetries - retries
decreasing_by omega

/-- The response the gateway sends for a pair request, after a forward
that resolved with an upstream HTTP response. -/
inductive RespBody where
  | upstream (b : UpstreamBody)
  | envelope (ok : Bool) (errorMsg : Option String)
deriving DecidableEq, Repr

/-- `ApiController.handlePair` response logic after `forwardRequest`
resolved: empty body answers 502 with an error envelope; a body whose
`error` field is truthy answers `createResponse(false, null, error)` with
the upstream status when it is at least 400, else 400; any other body is
passed through verbatim with the upstream status. -/
def handlePairRespond (resp : HttpResp) : Nat × RespBody :=
  match resp.body with
  | none => (502, .envelope false (some "Backend server returned empty response"))
  | some b =>
      match b.errorField with
      | some e => (if resp.status ≥ 400 then resp.status else 400, .envelope false (some e))
      | none => (resp.status, .upstream b)

/-! ## Helper lemmas about keyed updates -/

/-- A keyed in-place update commutes with `find?` on the key: updating the
entries whose key is `k` and then looking `k` up finds the updated first
match. -/
lemma find?_map_keyed {α β : Type} [DecidableEq β] (key : α → β) (g : α → α)
    (hg : ∀ x, key (g x) = key x) (k : β) :
    ∀ l : List α,
      (l.map (fun x => if key x = k then g x else x)).find? (fun x => decide (key x = k)) =
        (l.find? (fun x => decide (key x = k))).map g
  | [] => rfl
  | a :: t => by
      by_cases ha : key a = k
      · rw [List.map_cons, if_pos ha, List.find?_cons_of_pos _ (by simp [hg, ha]),
          List.find?_cons_of_pos _ (by simp [ha])]
        rfl
      · rw [List.map_cons, if_neg ha, List.find?_cons_of_neg _ (by simp [ha]),
          List.find?_cons_of_neg _ (by simp [ha])]
        exact find?_map_keyed key g hg k t

lemma statusUpdate_id (s : Server) (status : Status) (now : Nat) :
    (statusUpdate s status now).id = s.id := by
  cases status <;> rfl

lemma applyPatch_id (s : Server) (p : Patch) : (applyPatch s p).id = s.id := rfl

/-- `updateServerStatus` on a known id rewrites exactly the found record. -/
lemma getServer_updateServerStatus (st : GatewayState) (serverId : String) (status : Status)
    (p : Patch) (s0 : Server) (h : getServer st serverId = some s0) :
    getServer (updateServerStatus st serverId status p) serverId =
      some (applyPatch (statusUpdate s0 status st.now) p) := by
  unfold getServer at h
  unfold getServer updateServerStatus
  rw [h]
  simp only
  rw [find?_map_keyed Server.id (fun s => applyPatch (statusUpdate s status st.now) p)
    (fun s => by rw [applyPatch_id, statusUpdate_id]) serverId st.servers, h]
  rfl

lemma updateServerStatus_sessionMap (st : GatewayState) (serverId : String)
    (status : Status) (p : Patch) :
    (updateServerStatus st serverId status p).sessionMap = st.sessionMap := by
  unfold updateServerStatus
  cases st.servers.find? (fun s => decide (s.id = serverId)) <;> rfl

lemma updateServerStatus_now (st : GatewayState) (serverId : String)
    (status : Status) (p : Patch) :
    (updateServerStatus st serverId status p).now = st.now := by
  unfold updateServerStatus
  cases st.servers.find? (fun s => decide (s.id = serverId)) <;> rfl

/-- Deleting a key from the session index makes its lookup miss. -/
lemma mapGet_mapDelete (m : SessionMap) (k : String) : mapGet (mapDelete m k) k = none := by
  unfold mapGet mapDelete
  induction m with
  | nil => rfl
  | cons a t ih =>
      rw [List.filter_cons]
      by_cases ha : a.1 = k
      · rw [if_neg (by simp [ha])]
        exact ih
      · rw [if_pos (by simp [ha]), List.find?_cons_of_neg _ (by simp [ha])]
        exact ih

/-! ## C10 -/

/-- C10: for an id absent from the registry, `updateServerStatus` and
`resetServer` return normally and leave the whole state (registry, session
index, cache) unchanged, and the reset endpoint still answers `ok: true`
with HTTP 200. -/
theorem unknownServer_noop (st : GatewayState) (serverId : String) (status : Status)
    (p : Patch) (h : getServer st serverId = none) :
    updateServerStatus st serverId status p = st ∧
    resetServer st serverId = st ∧
    apiResetServer st serverId = (st, 200, true) := by
  unfold getServer at h
  refine ⟨?_, ?_, ?_⟩
  · unfold updateServerStatus; rw [h]
  · unfold resetServer; rw [h]
  · unfold apiResetServer resetServer; rw [h]

/-- Witness for C10 at a concrete one-server registry and the unknown id
`server-9`. -/
theorem unknownServer_noop_witness :
    updateServerStatus (initializeServers ["http://a"] 0) "server-9" .healthy {} =
        initializeServers ["http://a"] 0 ∧
    resetServer (initializeServers ["http://a"] 0) "server-9" =
        initializeServers ["http://a"] 0 ∧
    apiResetServer (initializeServers ["http://a"] 0) "server-9" =
        (initializeServers ["http://a"] 0, 200, true) :=
  unknownServer_noop (initializeServers ["http://a"] 0) "server-9" .healthy {} (by decide)

/-! ## C8 -/

/-- A two-backend registry created at time 100, reused by the concrete
counterexamples below. -/
def exampleState : GatewayState := initializeServers ["http://a", "http://b"] 100

/-- C8 counterexample: a backend already UNHEALTHY (failures = 1) updated
to UNHEALTHY again ends with failures = 2 — the source increments
`failures` on every UNHEALTHY update, not only on the transition into
UNHEALTHY as the claim states. -/
theorem updateStatus_failures_counterexample :
    ((getServer (updateServerStatus (updateServerStatus exampleState "server-1"
          .unhealthy {}) "server-1" .unhealthy {}) "server-1").map
        (fun s => s.metadata.failures) = some 2) ∧
    ¬ ((getServer (updateServerStatus (updateServerStatus exampleState "server-1"
          .unhealthy {}) "server-1" .unhealthy {}) "server-1").map
        (fun s => s.metadata.failures) = some 1) := by
  exact ⟨rfl, by decide⟩

/-- C8 (amended): for a known id, `updateServerStatus` stamps
`lastChecked` with the current time (unless the patch itself carries a
timestamp), increments `healthChecks`, applies the patch fields, and
increments `failures` exactly when the NEW status is UNHEALTHY — whether
or not the backend was already UNHEALTHY. -/
theorem updateServerStatus_characterization (st : GatewayState) (serverId : String)
    (status : Status) (p : Patch) (s0 : Server) (h : getServer st serverId = some s0) :
    ∃ s1, getServer (updateServerStatus st serverId status p) serverId = some s1 ∧
      s1.lastChecked = some (p.lastChecked.getD st.now) ∧
      s1.metadata.healthChecks = s0.metadata.healthChecks + 1 ∧
      s1.metadata.failures =
        s0.metadata.failures + (if status = .unhealthy then 1 else 0) ∧
      s1.sessionCount = p.sessionCount.getD s0.sessionCount ∧
      s1.responseTime = p.responseTime.getD s0.responseTime ∧
      s1.status = status := by
  refine ⟨_, getServer_updateServerStatus st serverId status p s0 h, ?_, ?_, ?_, ?_, ?_, ?_⟩
  all_goals
    cases status <;> cases hp : p.lastChecked <;>
      simp [applyPatch, statusUpdate, hp]

/-- Witness for C8's amended theorem: a FULL update with a session-count
patch on the concrete registry. -/
theorem updateServerStatus_characterization_witness :
    ∃ s1, getServer (updateServerStatus exampleState "server-1" .full
        { sessionCount := some 7 }) "server-1" = some s1 ∧
      s1.lastChecked = some ((Patch.lastChecked { sessionCount := some 7 }).getD
        exampleState.now) ∧
      s1.metadata.healthChecks = (initServer 0 "http://a" 100).metadata.healthChecks + 1 ∧
      s1.metadata.failures = (initServer 0 "http://a" 100).metadata.failures +
        (if Status.full = .unhealthy then 1 else 0) ∧
      s1.sessionCount = (Patch.sessionCount { sessionCount := some 7 }).getD
        (initServer 0 "http://a" 100).sessionCount ∧
      s1.responseTime = (Patch.responseTime { sessionCount := some 7 }).getD
        (initServer 0 "http://a" 100).responseTime ∧
      s1.status = .full :=
  updateServerStatus_characterization exampleState "server-1" .full { sessionCount := some 7 }
    (initServer 0 "http://a" 100) (by decide)

/-! ## C2 -/

/-- C2 counterexample: a successful probe (HTTP 200, one session `s1`)
leaves the backend's in-memory `sessions` set empty and adds nothing to
the session index, contradicting the claim that the sessions set becomes
the observed ids and that the index maps each observed session to the
backend.  (The probe's patch stores the raw list under `sessionsList`.) -/
theorem healthProbe_counterexample :
    ((getServer (checkServerHealth exampleState "server-1" {}
          (.response 200 [{ id := some "s1", sessionId := none }] none)) "server-1").map
        Server.sessions = some []) ∧
    (mapGet (checkServerHealth exampleState "server-1" {}
        (.response 200 [{ id := some "s1", sessionId := none }] none)).sessionMap "s1"
      = none) ∧
    ¬ (((getServer (checkServerHealth exampleState "server-1" {}
          (.response 200 [{ id := some "s1", sessionId := none }] none)) "server-1").map
        Server.sessions = some [some "s1"]) ∧
       (mapGet (checkServerHealth exampleState "server-1" {}
          (.response 200 [{ id := some "s1", sessionId := none }] none)).sessionMap "s1"
        = some "server-1")) := by
  refine ⟨rfl, rfl, ?_⟩
  decide

/-- C2 (amended): after a probe of a known backend returns HTTP 200 with
session list S, the backend's status is FULL iff `|S| ≥
MAX_SESSIONS_PER_SERVER` (else HEALTHY), its `sessionCount` is `|S|`,
`lastChecked` is stamped with the current time, the raw list is stored in
the `sessionsList` field — while the in-memory `sessions` set and the
session index are left unchanged. -/
theorem checkServerHealth_success_update (st : GatewayState) (cfg : Config)
    (serverId : String) (sessions : List SessionObj) (duration : Option Nat) (s0 : Server)
    (h : getServer st serverId = some s0) :
    ∃ s1, getServer (checkServerHealth st serverId cfg
        (.response 200 sessions duration)) serverId = some s1 ∧
      s1.status = (if sessions.length ≥ cfg.maxSessionsPerServer then .full else .healthy) ∧
      (s1.status = .full ↔ sessions.length ≥ cfg.maxSessionsPerServer) ∧
      s1.sessionCount = sessions.length ∧
      s1.lastChecked = some st.now ∧
      s1.sessionsList = some sessions ∧
      s1.sessions = s0.sessions ∧
      (checkServerHealth st serverId cfg
        (.response 200 sessions duration)).sessionMap = st.sessionMap := by
  have hred : checkServerHealth st serverId cfg (.response 200 sessions duration) =
      updateServerStatus st serverId
        (if sessions.length ≥ cfg.maxSessionsPerServer then .full else .healthy)
        { sessionCount := some sessions.length
          responseTime := some (duration.getD 0)
          lastChecked := some st.now
          sessionsList := some sessions } := rfl
  rw [hred]
  refine ⟨_, getServer_updateServerStatus st serverId _ _ s0 h, ?_, ?_, ?_, ?_, ?_, ?_,
    updateServerStatus_sessionMap _ _ _ _⟩
  all_goals
    by_cases hfull : sessions.length ≥ cfg.maxSessionsPerServer <;>
      simp [applyPatch, statusUpdate, hfull]

/-- The single-session 200 payload used by the concrete probes below. -/
def sampleSessions : List SessionObj := [{ id := some "s1", sessionId := none }]

/-- Witness for C2's amended theorem: probing `server-1` of the concrete
registry with a single-session 200 response. -/
theorem checkServerHealth_success_update_witness :
    ∃ s1, getServer (checkServerHealth exampleState "server-1" {}
        (.response 200 sampleSessions none)) "server-1" = some s1 ∧
      s1.status = (if sampleSessions.length ≥
        ({} : Config).maxSessionsPerServer then .full else .healthy) ∧
      (s1.status = .full ↔ sampleSessions.length ≥ ({} : Config).maxSessionsPerServer) ∧
      s1.sessionCount = sampleSessions.length ∧
      s1.lastChecked = some exampleState.now ∧
      s1.sessionsList = some sampleSessions ∧
      s1.sessions = (initServer 0 "http://a" 100).sessions ∧
      (checkServerHealth exampleState "server-1" {}
        (.response 200 sampleSessions none)).sessionMap = exampleState.sessionMap :=
  checkServerHealth_success_update exampleState {} "server-1"
    sampleSessions none (initServer 0 "http://a" 100) (by decide)

/-! ## C3 -/

/-- An upstream 200 response whose body carries `ok:false` and
`error:"boom"`. -/
def errorBody : UpstreamBody :=
  { ok := false, errorField := some "boom", sessionId := none, cleanNumber := none }

/-- The HTTP response wrapping `errorBody` with upstream status 200. -/
def errorBodyResp : HttpResp := { status := 200, body := some errorBody }

/-- An upstream 201 response with a clean `ok:true` body. -/
def cleanBody : UpstreamBody :=
  { ok := true, errorField := none, sessionId := some "sess-1", cleanNumber := none }

/-- The HTTP response wrapping `cleanBody` with upstream status 201. -/
def cleanBodyResp : HttpResp := { status := 201, body := some cleanBody }

/-- C3 counterexample: an upstream HTTP 200 whose body carries
`error: "boom"` is answered with status 400 and a rewritten error
envelope, not with the upstream body and status verbatim. -/
theorem handlePair_verbatim_counterexample :
    handlePairRespond errorBodyResp = (400, .envelope false (some "boom")) ∧
    ¬ (handlePairRespond errorBodyResp = (200, .upstream errorBody)) := by
  exact ⟨rfl, by decide⟩

/-- C3 (amended): the gateway passes an upstream response through verbatim
(body and status) exactly when the body is present and carries no `error`
field — including `ok:false` bodies; an absent/empty body is answered 502
with an error envelope, and a body with an `error` field is answered with
a rewritten envelope and status `max(upstream, 400)`-style remapping (the
upstream status if ≥ 400, else 400). -/
theorem handlePair_response_characterization (resp : HttpResp) :
    (∀ b, resp.body = some b → b.errorField = none →
      handlePairRespond resp = (resp.status, .upstream b)) ∧
    (resp.body = none →
      handlePairRespond resp =
        (502, .envelope false (some "Backend server returned empty response"))) ∧
    (∀ b e, resp.body = some b → b.errorField = some e →
      handlePairRespond resp =
        (if resp.status ≥ 400 then resp.status else 400, .envelope false (some e))) := by
  refine ⟨?_, ?_, ?_⟩
  · intro b hb herr
    simp only [handlePairRespond, hb, herr]
  · intro hb
    simp only [handlePairRespond, hb]
  · intro b e hb herr
    simp only [handlePairRespond, hb, herr]

/-- Witness for C3's amended theorem: a clean `ok:true` body is passed
through verbatim with the upstream 201 status. -/
theorem handlePair_response_characterization_witness :
    handlePairRespond cleanBodyResp = (cleanBodyResp.status, .upstream cleanBody) :=
  (handlePair_response_characterization cleanBodyResp).1 cleanBody rfl rfl

/-! ## C4 -/

/-- Effect of a successful logout in `deleteSessionFromServer`: counter
bumped, session dropped from the backend's list and from the index, count
decremented with floor 0, cache entry invalidated, and the result carries
the new count. -/
lemma deleteSuccess_spec (st : GatewayState) (serverId sid : String) (s0 : Server)
    (h : getServer st serverId = some s0) :
    ∃ s1, getServer (deleteSessionFromServer st serverId sid .success).1 serverId = some s1 ∧
      s1.metadata.deletedSessions = s0.metadata.deletedSessions + 1 ∧
      s1.sessions = s0.sessions.filter (fun x => decide (x ≠ some sid)) ∧
      s1.sessionCount = (if s0.sessionCount > 0 then s0.sessionCount - 1 else s0.sessionCount) ∧
      mapGet (deleteSessionFromServer st serverId sid .success).1.sessionMap sid = none ∧
      (deleteSessionFromServer st serverId sid .success).1.cache =
        cacheDelete st.cache ("sessions_" ++ serverId) ∧
      (deleteSessionFromServer st serverId sid .success).2 = .ok s1.sessionCount := by
  have hfind := h
  unfold getServer at hfind
  unfold deleteSessionFromServer getServer
  rw [hfind]
  simp only
  rw [find?_map_keyed Server.id
    (fun s => { s with
      metadata := { s.metadata with deletedSessions := s.metadata.deletedSessions + 1 }
      sessions := s.sessions.filter (fun x => decide (x ≠ some sid))
      sessionCount := if s.sessionCount > 0 then s.sessionCount - 1 else s.sessionCount })
    (fun s => rfl) serverId st.servers, hfind]
  refine ⟨_, rfl, rfl, rfl, rfl, mapGet_mapDelete _ _, trivial, rfl⟩

/-- Effect of a backend 404 in `deleteSessionFromServer`: only the session
list and the index entry are cleaned; counters, count and cache are left
untouched, and the 404 is rethrown. -/
lemma delete404_spec (st : GatewayState) (serverId sid : String) (s0 : Server)
    (h : getServer st serverId = some s0) :
    ∃ s1, getServer (deleteSessionFromServer st serverId sid .err404).1 serverId = some s1 ∧
      s1.metadata.deletedSessions = s0.metadata.deletedSessions ∧
      s1.sessions = s0.sessions.filter (fun x => decide (x ≠ some sid)) ∧
      s1.sessionCount = s0.sessionCount ∧
      mapGet (deleteSessionFromServer st serverId sid .err404).1.sessionMap sid = none ∧
      (deleteSessionFromServer st serverId sid .err404).1.cache = st.cache ∧
      (deleteSessionFromServer st serverId sid .err404).2 = .raised404 := by
  have hfind := h
  unfold getServer at hfind
  unfold deleteSessionFromServer getServer
  rw [hfind]
  simp only
  rw [find?_map_keyed Server.id
    (fun s => { s with sessions := s.sessions.filter (fun x => decide (x ≠ some sid)) })
    (fun s => rfl) serverId st.servers, hfind]
  refine ⟨_, rfl, rfl, rfl, rfl, mapGet_mapDelete _ _, trivial, trivial⟩

/-- The backend record of the delete counterexample: one session `s`,
count 1, no deletions yet. -/
def deleteCexServer : Server :=
  { initServer 0 "http://a" 100 with sessions := [some "s"], sessionCount := 1 }

/-- State for the delete counterexample: the session `s` lives on
`server-1`, is indexed, and the backend's session count is cached. -/
def deleteCexState : GatewayState :=
  { servers := [deleteCexServer, initServer 1 "http://b" 100]
    sessionMap := [("s", "server-1")]
    cache := [("sessions_server-1", 1, 99999)]
    now := 100 }

/-- C4 counterexample: when the backend answers 404, the local clean-up is
NOT the same as on success — `deletedSessions` stays 0, `sessionCount`
stays 1 and the cache entry survives, where the claim requires the counter
bumped, the count decremented and the cache invalidated. -/
theorem delete404_cleanup_counterexample :
    ((getServer (deleteSessionFromServer deleteCexState "server-1" "s" .err404).1
        "server-1").map (fun s => (s.metadata.deletedSessions, s.sessionCount)) =
      some (0, 1)) ∧
    ((deleteSessionFromServer deleteCexState "server-1" "s" .err404).1.cache =
      deleteCexState.cache) ∧
    ¬ (((getServer (deleteSessionFromServer deleteCexState "server-1" "s" .err404).1
        "server-1").map (fun s => (s.metadata.deletedSessions, s.sessionCount)) =
      some (1, 0)) ∧
      (deleteSessionFromServer deleteCexState "server-1" "s" .err404).1.cache =
        cacheDelete deleteCexState.cache "sessions_server-1") := by
  exact ⟨rfl, rfl, by decide⟩

/-- C4 (amended): on logout success the full local clean-up happens
(counter bumped, session dropped from the backend's list and the index,
count decremented floored at 0, cache invalidated); on a backend 404 only
the session list and the index entry are cleaned — counters, count and
cache are untouched — and the 404 is surfaced; deleting the same session
twice against the upstream contract yields success then 404, and the
index holds no entry for the session afterwards. -/
theorem deleteSession_effects_and_idempotence :
    (∀ (st : GatewayState) (serverId sid : String) (s0 : Server),
      getServer st serverId = some s0 →
      ∃ s1, getServer (deleteSessionFromServer st serverId sid .success).1 serverId
          = some s1 ∧
        s1.metadata.deletedSessions = s0.metadata.deletedSessions + 1 ∧
        s1.sessions = s0.sessions.filter (fun x => decide (x ≠ some sid)) ∧
        s1.sessionCount =
          (if s0.sessionCount > 0 then s0.sessionCount - 1 else s0.sessionCount) ∧
        mapGet (deleteSessionFromServer st serverId sid .success).1.sessionMap sid = none ∧
        (deleteSessionFromServer st serverId sid .success).1.cache =
          cacheDelete st.cache ("sessions_" ++ serverId) ∧
        (deleteSessionFromServer st serverId sid .success).2 = .ok s1.sessionCount) ∧
    (∀ (st : GatewayState) (serverId sid : String) (s0 : Server),
      getServer st serverId = some s0 →
      ∃ s1, getServer (deleteSessionFromServer st serverId sid .err404).1 serverId
          = some s1 ∧
        s1.metadata.deletedSessions = s0.metadata.deletedSessions ∧
        s1.sessions = s0.sessions.filter (fun x => decide (x ≠ some sid)) ∧
        s1.sessionCount = s0.sessionCount ∧
        mapGet (deleteSessionFromServer st serverId sid .err404).1.sessionMap sid = none ∧
        (deleteSessionFromServer st serverId sid .err404).1.cache = st.cache ∧
        (deleteSessionFromServer st serverId sid .err404).2 = .raised404) ∧
    (∀ (st : GatewayState) (w : World) (serverId sid : String) (s0 : Server)
      (entry : String × List String),
      getServer st serverId = some s0 →
      w.find? (fun p => decide (p.1 = serverId)) = some entry →
      sid ∈ entry.2 →
      ∃ st1 w1 n, deleteViaWorld st w serverId sid = (st1, w1, .ok n) ∧
        ∃ st2 w2, deleteViaWorld st1 w1 serverId sid = (st2, w2, .raised404) ∧
          mapGet st2.sessionMap sid = none) := by
  refine ⟨deleteSuccess_spec, delete404_spec, ?_⟩
  intro st w serverId sid s0 entry h hw hmem
  obtain ⟨efst, esnd⟩ := entry
  have hlog1 : worldLogout w serverId sid =
      (.success, w.map (fun p =>
        if p.1 = serverId then (p.1, p.2.filter (fun x => decide (x ≠ sid))) else p)) := by
    unfold worldLogout
    rw [hw]
    simp only
    rw [if_pos hmem]
  obtain ⟨s1, hs1, _, _, _, hmap1, _, hres1⟩ := deleteSuccess_spec st serverId sid s0 h
  rcases hsplit : deleteSessionFromServer st serverId sid .success with ⟨stA, rA⟩
  have hrA : rA = .ok s1.sessionCount := by rw [hsplit] at hres1; exact hres1
  have hsA : getServer stA serverId = some s1 := by rw [hsplit] at hs1; exact hs1
  refine ⟨stA, w.map (fun p =>
      if p.1 = serverId then (p.1, p.2.filter (fun x => decide (x ≠ sid))) else p),
    s1.sessionCount, ?_, ?_⟩
  · unfold deleteViaWorld
    rw [hlog1]
    simp only
    rw [hsplit, hrA]
  · have hfind2 : (w.map (fun p =>
        if p.1 = serverId then (p.1, p.2.filter (fun x => decide (x ≠ sid))) else p)).find?
          (fun p => decide (p.1 = serverId)) =
        some (efst, esnd.filter (fun x => decide (x ≠ sid))) := by
      rw [find?_map_keyed Prod.fst
        (fun p => (p.1, p.2.filter (fun x => decide (x ≠ sid)))) (fun p => rfl) serverId w,
        hw]
      rfl
    have hnot : sid ∉ esnd.filter (fun x => decide (x ≠ sid)) := by
      intro hc
      have := List.mem_filter.mp hc
      simp at this
    have hlog2 : worldLogout (w.map (fun p =>
        if p.1 = serverId then (p.1, p.2.filter (fun x => decide (x ≠ sid))) else p))
          serverId sid =
        (.err404, w.map (fun p =>
          if p.1 = serverId then (p.1, p.2.filter (fun x => decide (x ≠ sid))) else p)) := by
      unfold worldLogout
      rw [hfind2]
      simp only
      rw [if_neg hnot]
    obtain ⟨s2, _, _, _, _, hmap2, _, hres2⟩ := delete404_spec stA serverId sid s1 hsA
    rcases hsplit2 : deleteSessionFromServer stA serverId sid .err404 with ⟨stB, rB⟩
    have hrB : rB = .raised404 := by rw [hsplit2] at hres2; exact hres2
    have hmB : mapGet stB.sessionMap sid = none := by rw [hsplit2] at hmap2; exact hmap2
    refine ⟨stB, w.map (fun p =>
        if p.1 = serverId then (p.1, p.2.filter (fun x => decide (x ≠ sid))) else p),
      ?_, hmB⟩
    unfold deleteViaWorld
    rw [hlog2]
    simp only
    rw [hsplit2, hrB]

/-- Witness for C4's amended theorem: the concrete delete state where the
session `s` lives on `server-1` both locally and upstream; the success
characterization and the success-then-404 idempotence are instantiated. -/
theorem deleteSession_effects_witness :
    (∃ s1, getServer (deleteSessionFromServer deleteCexState "server-1" "s" .success).1
        "server-1" = some s1 ∧
      s1.metadata.deletedSessions = deleteCexServer.metadata.deletedSessions + 1 ∧
      s1.sessions = deleteCexServer.sessions.filter (fun x => decide (x ≠ some "s")) ∧
      s1.sessionCount = (if deleteCexServer.sessionCount > 0 then
        deleteCexServer.sessionCount - 1 else deleteCexServer.sessionCount) ∧
      mapGet (deleteSessionFromServer deleteCexState "server-1" "s"
        .success).1.sessionMap "s" = none ∧
      (deleteSessionFromServer deleteCexState "server-1" "s" .success).1.cache =
        cacheDelete deleteCexState.cache ("sessions_" ++ "server-1") ∧
      (deleteSessionFromServer deleteCexState "server-1" "s" .success).2 =
        .ok s1.sessionCount) ∧
    (∃ st1 w1 n, deleteViaWorld deleteCexState [("server-1", ["s"])] "server-1" "s" =
        (st1, w1, .ok n) ∧
      ∃ st2 w2, deleteViaWorld st1 w1 "server-1" "s" = (st2, w2, .raised404) ∧
        mapGet st2.sessionMap "s" = none) :=
  ⟨deleteSession_effects_and_idempotence.1 deleteCexState "server-1" "s" deleteCexServer
      (by decide),
    deleteSession_effects_and_idempotence.2.2 deleteCexState [("server-1", ["s"])]
      "server-1" "s" deleteCexServer ("server-1", ["s"]) (by decide) (by decide) (by decide)⟩

/-! ## C7 -/

/-- The registry invariant of the claim: every backend's `isActive` flag
agrees with `status = HEALTHY`. -/
def activeInv (servers : List Server) : Prop :=
  ∀ s ∈ servers, s.isActive = decide (s.status = Status.healthy)

lemma activeInv_updateServerStatus (st : GatewayState) (serverId : String)
    (status : Status) (p : Patch) (hinv : activeInv st.servers) :
    activeInv (updateServerStatus st serverId status p).servers := by
  unfold updateServerStatus
  cases hfind : st.servers.find? (fun s => decide (s.id = serverId)) with
  | none => exact hinv
  | some s0 =>
      intro s hs
      simp only at hs
      obtain ⟨a, ha, rfl⟩ := List.mem_map.mp hs
      by_cases hid : a.id = serverId
      · rw [if_pos hid]
        cases status <;> rfl
      · rw [if_neg hid]
        exact hinv a ha

lemma activeInv_setServerSessions (st : GatewayState) (serverId : String)
    (ids : List (Option String)) (hinv : activeInv st.servers) :
    activeInv (setServerSessions st serverId ids).servers := by
  intro s hs
  obtain ⟨a, ha, rfl⟩ := List.mem_map.mp hs
  by_cases hid : a.id = serverId
  · rw [if_pos hid]
    exact hinv a ha
  · rw [if_neg hid]
    exact hinv a ha

/-- C7: in every reachable state each backend satisfies
`isActive = (status = HEALTHY)` — registry initialization establishes the
invariant, and every mutating operation (`updateServerStatus` with any
status and patch, `resetServer`, the session-count refresh, the delete
operation with any logout outcome) preserves it. -/
theorem isActive_status_invariant :
    (∀ (urls : List String) (now : Nat), activeInv (initializeServers urls now).servers) ∧
    (∀ (st : GatewayState) (serverId : String) (status : Status) (p : Patch),
      activeInv st.servers → activeInv (updateServerStatus st serverId status p).servers) ∧
    (∀ (st : GatewayState) (serverId : String),
      activeInv st.servers → activeInv (resetServer st serverId).servers) ∧
    (∀ (st : GatewayState) (serverId : String) (cfg : Config) (probe : ProbeOutcome),
      activeInv st.servers →
        activeInv (getServerSessionCount st serverId cfg probe).1.servers) ∧
    (∀ (st : GatewayState) (serverId sid : String) (outcome : LogoutOutcome),
      activeInv st.servers →
        activeInv (deleteSessionFromServer st serverId sid outcome).1.servers) := by
  refine ⟨?_, activeInv_updateServerStatus, ?_, ?_, ?_⟩
  · intro urls now s hs
    simp only [initializeServers] at hs
    obtain ⟨a, _, rfl⟩ := List.mem_map.mp hs
    rfl
  · intro st serverId hinv
    unfold resetServer
    cases hfind : st.servers.find? (fun s => decide (s.id = serverId)) with
    | none => exact hinv
    | some s0 =>
        intro s hs
        simp only at hs
        obtain ⟨a, ha, rfl⟩ := List.mem_map.mp hs
        by_cases hid : a.id = serverId
        · rw [if_pos hid]
          rfl
        · rw [if_neg hid]
          exact hinv a ha
  · intro st serverId cfg probe hinv
    unfold getServerSessionCount
    dsimp only
    cases probe with
    | response status sessions duration =>
        split
        · exact hinv
        · split
          · exact hinv
          · exact activeInv_updateServerStatus _ _ _ _
              (activeInv_setServerSessions _ _ _ hinv)
    | connFailure msg =>
        split
        · exact hinv
        · split
          · exact hinv
          · exact activeInv_updateServerStatus _ _ _ _ hinv
    | otherFailure msg =>
        split
        · exact hinv
        · split
          · exact hinv
          · exact hinv
  · intro st serverId sid outcome hinv
    unfold deleteSessionFromServer
    cases hg : getServer st serverId with
    | none => exact hinv
    | some s0 =>
        cases outcome with
        | success =>
            intro s hs
            simp only at hs
            obtain ⟨a, ha, rfl⟩ := List.mem_map.mp hs
            by_cases hid : a.id = serverId
            · rw [if_pos hid]
              exact hinv a ha
            · rw [if_neg hid]
              exact hinv a ha
        | err404 =>
            intro s hs
            simp only at hs
            obtain ⟨a, ha, rfl⟩ := List.mem_map.mp hs
            by_cases hid : a.id = serverId
            · rw [if_pos hid]
              exact hinv a ha
            · rw [if_neg hid]
              exact hinv a ha
        | errOther => exact hinv

/-- Witness for C7: the invariant holds of a freshly initialized registry
and is preserved by a concrete FULL update of `server-1`. -/
theorem isActive_status_invariant_witness :
    activeInv (initializeServers ["http://a", "http://b"] 100).servers ∧
    activeInv (updateServerStatus exampleState "server-1" .full {}).servers :=
  ⟨isActive_status_invariant.1 ["http://a", "http://b"] 100,
    isActive_status_invariant.2.1 exampleState "server-1" .full {}
      (by unfold activeInv; decide)⟩

/-! ## C9 -/

/-- Attempt-count bound for the retry recursion, by induction on the
remaining retry budget. -/
lemma forwardRequest_attempts_le (cfg : Config)
    (attemptAt : Nat → Except TransportError HttpResp) (reselect : Nat → Option Server) :
    ∀ (fuel retries : Nat) (server : Server), retries ≤ cfg.maxRetries →
      cfg.maxRetries - retries ≤ fuel →
      (forwardRequest cfg attemptAt reselect server retries).2 ≤
        cfg.maxRetries + 1 - retries := by
  intro fuel
  induction fuel with
  | zero =>
      intro retries server hr hfuel
      unfold forwardRequest
      cases attemptAt retries with
      | ok resp => dsimp only; omega
      | error e =>
          dsimp only
          rw [dif_neg (by omega : ¬ retries < cfg.maxRetries)]
          dsimp only
          omega
  | succ n ih =>
      intro retries server hr hfuel
      unfold forwardRequest
      cases attemptAt retries with
      | ok resp => dsimp only; omega
      | error e =>
          dsimp only
          by_cases hlt : retries < cfg.maxRetries
          · rw [dif_pos hlt]
            cases reselect (retries + 1) with
            | some newServer =>
                dsimp only
                have := ih (retries + 1) newServer (by omega) (by omega)
                omega
            | none => dsimp only; omega
          · rw [dif_neg hlt]
            dsimp only
            omega

/-- C9: a single top-level `forwardRequest` call issues at most
`MAX_RETRIES + 1` upstream HTTP attempts, for every configuration, every
sequence of attempt outcomes and every sequence of reselection results;
the recursion is total because the retry counter strictly increases
toward `MAX_RETRIES` (the definition is accepted with the decreasing
measure `maxRetries - retries`). -/
theorem forwardRequest_attempt_bound (cfg : Config)
    (attemptAt : Nat → Except TransportError HttpResp) (reselect : Nat → Option Server)
    (server : Server) :
    (forwardRequest cfg attemptAt reselect server 0).2 ≤ cfg.maxRetries + 1 := by
  have := forwardRequest_attempts_le cfg attemptAt reselect cfg.maxRetries 0 server
    (Nat.zero_le _) (by omega)
  omega

/-! ## C1 -/

lemma getD_mem {α : Type} {l : List α} {d : α} (hd : d ∈ l) (i : Nat) : l.getD i d ∈ l := by
  rcases Nat.lt_or_ge i l.length with hi | hi
  · rw [List.getD_eq_getElem?_getD, List.getElem?_eq_getElem hi, Option.getD_some]
    exact List.getElem_mem hi
  · rw [List.getD_eq_getElem?_getD, List.getElem?_eq_none hi, Option.getD_none]
    exact hd

/-- `Math.min` over a non-empty list is attained by one of its elements. -/
lemma listMin_mem : ∀ (vs : List Nat) (v : Nat), listMin v vs ∈ v :: vs
  | [], v => by simp [listMin]
  | w :: ws, v => by
      have h := listMin_mem ws (min v w)
      unfold listMin at h ⊢
      rw [List.foldl_cons]
      rcases List.mem_cons.mp h with h1 | h1
      · rw [h1]
        rcases Nat.le_total v w with hvw | hvw
        · rw [Nat.min_eq_left hvw]
          exact List.mem_cons_self _ _
        · rw [Nat.min_eq_right hvw]
          exact List.mem_cons_of_mem _ (List.mem_cons_self _ _)
      · exact List.mem_cons_of_mem _ (List.mem_cons_of_mem _ h1)

/-- Elements passing the `< MAX_SESSIONS_PER_SERVER` filter carry a
defined count below the cap. -/
lemma availPred_spec {cfg : Config} {p : Server × Option Nat}
    (h : (match p.2 with
      | some c => decide (c < cfg.maxSessionsPerServer)
      | none => false) = true) :
    ∃ c, p.2 = some c ∧ c < cfg.maxSessionsPerServer := by
  cases hp : p.2 with
  | none => rw [hp] at h; simp at h
  | some c =>
      rw [hp] at h
      simp only [decide_eq_true_eq] at h
      exact ⟨c, rfl, h⟩

/-- Any pair selected out of the availability cascade comes from the
active list with its own count attached. -/
lemma select_pair_spec (servers : List Server) (counts : String → Option Nat)
    (cfg : Config) {p : Server × Option Nat}
    (hp : p ∈ (servers.filter (fun s => decide (s.status = .healthy) && s.isActive)).map
        (fun s => (s, counts s.id))) :
    p.1 ∈ servers ∧ p.1.status = .healthy ∧ p.1.isActive = true ∧ p.2 = counts p.1.id := by
  obtain ⟨s, hs, rfl⟩ := List.mem_map.mp hp
  obtain ⟨hmem, hcond⟩ := List.mem_filter.mp hs
  rw [Bool.and_eq_true, decide_eq_true_eq] at hcond
  exact ⟨hmem, hcond.1, hcond.2, rfl⟩

/-- Soundness of `selectOptimalServer`: every successfully selected server
is in the registry, HEALTHY and active, and its count is defined and
below the cap. -/
lemma selectOptimalServer_ok_sound (servers : List Server) (counts : String → Option Nat)
    (cfg : Config) (rr : Nat) (srv : Server) (rr' : Nat)
    (h : selectOptimalServer servers counts cfg rr = .ok (srv, rr')) :
    srv ∈ servers ∧ srv.status = .healthy ∧ srv.isActive = true ∧
      ∃ c, counts srv.id = some c ∧ c < cfg.maxSessionsPerServer := by
  unfold selectOptimalServer at h
  dsimp only at h
  split at h
  · split at h
    · exact absurd h (by simp)
    · split at h
      · exact absurd h (by simp)
      · exact absurd h (by simp)
  · split at h
    · exact absurd h (by simp)
    · next a rest heq =>
        split at h
        · exact absurd h (by simp)
        · next b lrest heq2 =>
            have hsub : ∀ q ∈ b :: lrest,
                q ∈ (servers.filter (fun s => decide (s.status = .healthy) && s.isActive)).map
                  (fun s => (s, counts s.id)) ∧
                  ∃ c, q.2 = some c ∧ c < cfg.maxSessionsPerServer := by
              intro q hq
              rw [← heq2] at hq
              have hq2 := List.mem_of_mem_filter hq
              rw [← heq] at hq2
              obtain ⟨hq3, hq4⟩ := List.mem_filter.mp hq2
              exact ⟨hq3, availPred_spec hq4⟩
            split at h
            · rw [Except.ok.injEq, Prod.mk.injEq] at h
              obtain ⟨hsrv, _⟩ := h
              have hmem : ((b :: lrest).getD ((rr + 1) % (b :: lrest).length) b) ∈ b :: lrest :=
                getD_mem (List.mem_cons_self _ _) _
              obtain ⟨hq1, c, hq2, hq3⟩ := hsub _ hmem
              obtain ⟨h1, h2, h3, h4⟩ := select_pair_spec servers counts cfg hq1
              have hcount : counts ((b :: lrest).getD ((rr + 1) % (b :: lrest).length) b).1.id
                  = some c := by
                rw [← h4]
                exact hq2
              rw [hsrv] at h1 h2 h3 hcount
              exact ⟨h1, h2, h3, c, hcount, hq3⟩
            · rw [Except.ok.injEq, Prod.mk.injEq] at h
              obtain ⟨hsrv, _⟩ := h
              obtain ⟨hq1, c, hq2, hq3⟩ := hsub b (List.mem_cons_self _ _)
              obtain ⟨h1, h2, h3, h4⟩ := select_pair_spec servers counts cfg hq1
              have hcount : counts b.1.id = some c := by
                rw [← h4]
                exact hq2
              rw [hsrv] at h1 h2 h3 hcount
              exact ⟨h1, h2, h3, c, hcount, hq3⟩

/-- Existence: under the `isActive` invariant, a HEALTHY server with a
defined count below the cap forces `selectOptimalServer` to succeed. -/
lemma selectOptimalServer_isOk (servers : List Server) (counts : String → Option Nat)
    (cfg : Config) (rr : Nat)
    (hinv : ∀ s ∈ servers, s.isActive = decide (s.status = Status.healthy))
    (s0 : Server) (hs0 : s0 ∈ servers) (h0 : s0.status = .healthy)
    (c0 : Nat) (hc0 : counts s0.id = some c0) (hlt : c0 < cfg.maxSessionsPerServer) :
    ∃ srv rr', selectOptimalServer servers counts cfg rr = .ok (srv, rr') := by
  unfold selectOptimalServer
  dsimp only
  have hact : s0 ∈ servers.filter (fun s => decide (s.status = .healthy) && s.isActive) := by
    rw [List.mem_filter]
    refine ⟨hs0, ?_⟩
    rw [Bool.and_eq_true, decide_eq_true_eq]
    exact ⟨h0, by rw [hinv s0 hs0, h0]; rfl⟩
  rw [if_neg (by
    rw [List.isEmpty_iff]
    intro hnil
    rw [hnil] at hact
    exact absurd hact (List.not_mem_nil s0))]
  have havail : (s0, counts s0.id) ∈
      ((servers.filter (fun s => decide (s.status = .healthy) && s.isActive)).map
        (fun s => (s, counts s.id))).filter (fun p =>
          match p.2 with
          | some c => decide (c < cfg.maxSessionsPerServer)
          | none => false) := by
    rw [List.mem_filter]
    refine ⟨List.mem_map_of_mem _ hact, ?_⟩
    simp only [hc0, decide_eq_true_eq]
    exact hlt
  split
  · next heq =>
      rw [heq] at havail
      exact absurd havail (List.not_mem_nil _)
  · next a rest heq =>
      split
      · next heq2 =>
          exfalso
          have hmin := listMin_mem (rest.map (fun p => p.2.getD 0)) (a.2.getD 0)
          rw [← List.map_cons (fun p => (p.2 : Option Nat).getD 0) a rest] at hmin
          obtain ⟨q, hq, hqmin⟩ := List.mem_map.mp hmin
          have hqavail : q ∈ ((servers.filter
              (fun s => decide (s.status = .healthy) && s.isActive)).map
                (fun s => (s, counts s.id))).filter (fun p =>
                  match p.2 with
                  | some c => decide (c < cfg.maxSessionsPerServer)
                  | none => false) := by
            rw [heq]
            exact hq
          obtain ⟨c, hc, _⟩ := availPred_spec (List.mem_filter.mp hqavail).2
          have hq2 : q.2 = some (listMin (a.2.getD 0) (rest.map fun p => p.2.getD 0)) := by
            rw [hc] at hqmin ⊢
            rw [Option.getD_some] at hqmin
            rw [hqmin]
          have : q ∈ (a :: rest).filter (fun p =>
              decide (p.2 = some (listMin (a.2.getD 0) (rest.map fun p => p.2.getD 0)))) := by
            rw [List.mem_filter]
            exact ⟨hq, by rw [hq2]; simp⟩
          rw [heq2] at this
          exact absurd this (List.not_mem_nil q)
      · next b lrest heq2 =>
          split
          · exact ⟨_, _, rfl⟩
          · exact ⟨_, _, rfl⟩

/-- C1: whenever the registry (satisfying the `isActive` invariant of
reachable states) holds at least one HEALTHY backend whose session count
is defined and strictly below `MAX_SESSIONS_PER_SERVER`,
`selectOptimalServer` returns such a backend; and any successful
selection, in any state, never yields a FULL or UNHEALTHY backend. -/
theorem selectOptimalServer_selection_preference (servers : List Server)
    (counts : String → Option Nat) (cfg : Config) (rr : Nat) :
    ((∀ s ∈ servers, s.isActive = decide (s.status = Status.healthy)) →
      (∃ s, s ∈ servers ∧ s.status = .healthy ∧
        ∃ c, counts s.id = some c ∧ c < cfg.maxSessionsPerServer) →
      ∃ srv rr', selectOptimalServer servers counts cfg rr = .ok (srv, rr') ∧
        srv ∈ servers ∧ srv.status = .healthy ∧
        ∃ c, counts srv.id = some c ∧ c < cfg.maxSessionsPerServer) ∧
    (∀ srv rr', selectOptimalServer servers counts cfg rr = .ok (srv, rr') →
      srv.status ≠ .full ∧ srv.status ≠ .unhealthy) := by
  constructor
  · rintro hinv ⟨s0, hs0, h0, c0, hc0, hlt⟩
    obtain ⟨srv, rr', hok⟩ :=
      selectOptimalServer_isOk servers counts cfg rr hinv s0 hs0 h0 c0 hc0 hlt
    obtain ⟨hm, hh, _, hc⟩ := selectOptimalServer_ok_sound servers counts cfg rr srv rr' hok
    exact ⟨srv, rr', hok, hm, hh, hc⟩
  · intro srv rr' hok
    obtain ⟨_, hh, _, _⟩ := selectOptimalServer_ok_sound servers counts cfg rr srv rr' hok
    rw [hh]
    exact ⟨(by decide), (by decide)⟩

/-- Witness for C1: the fresh two-server registry with every count 3
selects a HEALTHY backend with count below the default cap 25. -/
theorem selectOptimalServer_selection_preference_witness :
    ∃ srv rr', selectOptimalServer exampleState.servers (fun _ => some 3) {} 0 =
        .ok (srv, rr') ∧
      srv ∈ exampleState.servers ∧ srv.status = .healthy ∧
      ∃ c, (fun _ => some (3 : Nat)) srv.id = some c ∧
        c < ({} : Config).maxSessionsPerServer :=
  (selectOptimalServer_selection_preference exampleState.servers (fun _ => some 3) {} 0).1
    (by decide) ⟨initServer 0 "http://a" 100, by decide, rfl, 3, rfl, by decide⟩

/-! ## C5 -/

/-- Registry for the find-session counterexample: the session `sess-x` is
recorded in `server-2`'s in-memory set, nowhere in the index. -/
def findCexState : GatewayState :=
  { servers := [initServer 0 "http://a" 100,
      { initServer 1 "http://b" 100 with sessions := [some "sess-x"] }]
    sessionMap := []
    cache := []
    now := 100 }

/-- Probe oracle for the counterexample: `server-1`'s `/sessions` response
reports `sess-x`; probing anything else fails. -/
def findCexProbe : String → Option (List SessionObj) := fun srvId =>
  if srvId = "server-1" then some [{ id := some "sess-x", sessionId := none }] else none

/-- C5 counterexample: although `sess-x` sits in `server-2`'s in-memory
sessions set, resolution returns `server-1` with `cached = false`, because
the loop probes `server-1`'s endpoint before ever looking at `server-2`'s
in-memory set — the memory scan and the probe stage are interleaved per
backend, not sequential. -/
theorem findSession_stage_order_counterexample :
    ((findSessionServer findCexState findCexProbe "sess-x").2 =
      some { serverId := "server-1", cached := false }) ∧
    ((getServer findCexState "server-2").map Server.sessions = some [some "sess-x"]) ∧
    ¬ ((findSessionServer findCexState findCexProbe "sess-x").2 =
      some { serverId := "server-2", cached := true }) := by
  exact ⟨rfl, rfl, by decide⟩

/-- A backend `y` does not resolve `sid` when visited: the session is not
in its in-memory set, and its probe either fails or reports a session list
without `sid`. -/
def missAt (st : GatewayState) (probe : String → Option (List SessionObj))
    (sid y : String) : Prop :=
  ∃ sy, getServer st y = some sy ∧ (some sid) ∉ sy.sessions ∧
    (probe y = none ∨ ∃ objs, probe y = some objs ∧ sessionExists objs sid = false)

/-- `find?` by key commutes with any id-preserving map of the list. -/
lemma find?_map_keypreserving {α β : Type} [DecidableEq β] (key : α → β) (f : α → α)
    (hf : ∀ x, key (f x) = key x) (k : β) :
    ∀ l : List α, (l.map f).find? (fun x => decide (key x = k)) =
      (l.find? (fun x => decide (key x = k))).map f
  | [] => rfl
  | a :: t => by
      by_cases ha : key a = k
      · rw [List.map_cons, List.find?_cons_of_pos _ (by simp [hf, ha]),
          List.find?_cons_of_pos _ (by simp [ha])]
        rfl
      · rw [List.map_cons, List.find?_cons_of_neg _ (by simp [hf, ha]),
          List.find?_cons_of_neg _ (by simp [ha])]
        exact find?_map_keypreserving key f hf k t

/-- Refreshing one backend's sessions leaves every other id's lookup
unchanged. -/
lemma getServer_setServerSessions_ne (st : GatewayState) (y : String)
    (ids : List (Option String)) (z : String) (hne : z ≠ y) :
    getServer (setServerSessions st y ids) z = getServer st z := by
  unfold getServer setServerSessions
  rw [find?_map_keypreserving Server.id
    (fun s => if s.id = y then { s with sessions := ids } else s)
    (fun s => by
      dsimp only
      by_cases hsy : s.id = y
      · rw [if_pos hsy]
      · rw [if_neg hsy]) z st.servers]
  cases hf : st.servers.find? (fun s => decide (s.id = z)) with
  | none => rfl
  | some sz =>
      have hz := List.find?_some hf
      rw [decide_eq_true_eq] at hz
      rw [Option.map_some', if_neg (by rw [hz]; exact hne)]

/-- Defining equation of `findLoop` on a cons cell. -/
lemma findLoop_cons (st : GatewayState) (probe : String → Option (List SessionObj))
    (sid srvId : String) (rest : List String) :
    findLoop st probe sid (srvId :: rest) =
      match getServer st srvId with
      | none => findLoop st probe sid rest
      | some server =>
          if (some sid) ∈ server.sessions then
            ({ st with sessionMap := mapSet st.sessionMap sid server.id },
              some { serverId := server.id, cached := true })
          else
            match probe server.id with
            | none => findLoop st probe sid rest
            | some sessions =>
                let st1 := setServerSessions st server.id (sessions.map sessObjId)
                if sessionExists sessions sid then
                  ({ st1 with sessionMap := mapSet st1.sessionMap sid server.id },
                    some { serverId := server.id, cached := false })
                else findLoop st1 probe sid rest := rfl

/-- Skipping a prefix of missing backends: the loop's verdict over
`pre ++ rest` equals its verdict over `rest` from a state that differs
from the original only at the probed `pre` backends, with the index
untouched. -/
lemma findLoop_skip_pre (probe : String → Option (List SessionObj)) (sid : String) :
    ∀ (pre : List String) (st : GatewayState) (rest : List String),
      pre.Nodup →
      (∀ y ∈ pre, missAt st probe sid y) →
      ∃ st', (findLoop st probe sid (pre ++ rest)).2 = (findLoop st' probe sid rest).2 ∧
        (∀ z, z ∉ pre → getServer st' z = getServer st z) ∧
        st'.sessionMap = st.sessionMap
  | [], st, rest, _, _ => ⟨st, rfl, fun _ _ => rfl, rfl⟩
  | y :: pre', st, rest, hnd, hmiss => by
      obtain ⟨sy, hsy, hnotmem, hprobe⟩ := hmiss y (List.mem_cons_self _ _)
      have hid : sy.id = y := by
        have := List.find?_some hsy
        rwa [decide_eq_true_eq] at this
      have hnd' : pre'.Nodup := (List.nodup_cons.mp hnd).2
      have hyni : y ∉ pre' := (List.nodup_cons.mp hnd).1
      have hmiss' : ∀ z ∈ pre', missAt st probe sid z :=
        fun z hz => hmiss z (List.mem_cons_of_mem _ hz)
      rw [List.cons_append]
      cases hprobe with
      | inl hnone =>
          have hstep : findLoop st probe sid (y :: (pre' ++ rest)) =
              findLoop st probe sid (pre' ++ rest) := by
            rw [findLoop_cons, hsy]
            dsimp only
            rw [if_neg hnotmem, hid, hnone]
          rw [hstep]
          obtain ⟨st', heq, hpres, hmap⟩ :=
            findLoop_skip_pre probe sid pre' st rest hnd' hmiss'
          exact ⟨st', heq, fun z hz => hpres z (fun hc => hz (List.mem_cons_of_mem _ hc)),
            hmap⟩
      | inr hobjs =>
          obtain ⟨objs, hpo, hnex⟩ := hobjs
          have hstep : findLoop st probe sid (y :: (pre' ++ rest)) =
              findLoop (setServerSessions st y (objs.map sessObjId)) probe sid
                (pre' ++ rest) := by
            rw [findLoop_cons, hsy]
            dsimp only
            rw [if_neg hnotmem, hid, hpo]
            dsimp only
            rw [if_neg (by rw [hnex]; exact Bool.false_ne_true)]
          rw [hstep]
          have hmiss1 : ∀ z ∈ pre', missAt (setServerSessions st y (objs.map sessObjId))
              probe sid z := by
            intro z hz
            obtain ⟨sz, hsz, hnm, hp⟩ := hmiss' z hz
            refine ⟨sz, ?_, hnm, hp⟩
            rw [getServer_setServerSessions_ne st y _ z ?_]
            · exact hsz
            · intro hcon
              rw [hcon] at hz
              exact hyni hz
          obtain ⟨st', heq, hpres, hmap⟩ := findLoop_skip_pre probe sid pre'
            (setServerSessions st y (objs.map sessObjId)) rest hnd' hmiss1
          refine ⟨st', heq, ?_, hmap⟩
          intro z hz
          have hz1 : z ∉ pre' := fun hc => hz (List.mem_cons_of_mem _ hc)
          have hz2 : z ≠ y := fun hc => hz (by rw [hc]; exact List.mem_cons_self _ _)
          rw [hpres z hz1, getServer_setServerSessions_ne st y _ z hz2]

/-- C5 (amended): session resolution consults the session index first
(returning `cached = true` when the hint names a known backend); on an
index miss it walks the backends in registry order, and for each backend
checks its in-memory set (match: `cached = true`) and then immediately
probes that backend's `/sessions` endpoint (match: `cached = false`,
refreshing that backend's sessions as it goes) before moving to the next
backend; the first match in this per-backend interleaved order wins, and
if every backend misses the result is absent. -/
theorem findSession_resolution_order :
    (∀ (st : GatewayState) (probe : String → Option (List SessionObj))
      (sid b : String) (srv : Server),
      mapGet st.sessionMap sid = some b → getServer st b = some srv →
      findSessionServer st probe sid = (st, some { serverId := srv.id, cached := true })) ∧
    (∀ (st : GatewayState) (probe : String → Option (List SessionObj)) (sid : String)
      (pre : List String) (x : String) (post : List String) (sx : Server),
      st.servers.map (·.id) = pre ++ x :: post →
      (st.servers.map (·.id)).Nodup →
      mapGet st.sessionMap sid = none →
      (∀ y ∈ pre, missAt st probe sid y) →
      getServer st x = some sx →
      ((some sid) ∈ sx.sessions →
        (findSessionServer st probe sid).2 = some { serverId := x, cached := true }) ∧
      (∀ objs, (some sid) ∉ sx.sessions → probe x = some objs →
        sessionExists objs sid = true →
        (findSessionServer st probe sid).2 = some { serverId := x, cached := false })) ∧
    (∀ (st : GatewayState) (probe : String → Option (List SessionObj)) (sid : String),
      (st.servers.map (·.id)).Nodup →
      mapGet st.sessionMap sid = none →
      (∀ y ∈ st.servers.map (·.id), missAt st probe sid y) →
      (findSessionServer st probe sid).2 = none) := by
  refine ⟨?_, ?_, ?_⟩
  · intro st probe sid b srv hmap hsrv
    unfold findSessionServer
    rw [hmap]
    simp only
    rw [hsrv]
  · intro st probe sid pre x post sx hids hnd hmapnone hmiss hsx
    have hloop : findSessionServer st probe sid =
        findLoop st probe sid (st.servers.map (·.id)) := by
      unfold findSessionServer
      rw [hmapnone]
    have hndpre : pre.Nodup := by
      rw [hids] at hnd
      exact hnd.of_append_left
    have hxpre : x ∉ pre := by
      rw [hids, List.nodup_append] at hnd
      exact fun hc => hnd.2.2 hc (List.mem_cons_self _ _)
    obtain ⟨st', heq, hpres, _⟩ :=
      findLoop_skip_pre probe sid pre st (x :: post) hndpre hmiss
    have hsx' : getServer st' x = some sx := by
      rw [hpres x hxpre]
      exact hsx
    have hidx : sx.id = x := by
      have := List.find?_some hsx
      rwa [decide_eq_true_eq] at this
    constructor
    · intro hmem
      rw [hloop, hids, heq, findLoop_cons, hsx']
      dsimp only
      rw [if_pos hmem, hidx]
    · intro objs hnotmem hpo hex
      rw [hloop, hids, heq, findLoop_cons, hsx']
      dsimp only
      rw [if_neg hnotmem, hidx, hpo]
      dsimp only
      rw [if_pos hex]
  · intro st probe sid hnd hmapnone hmiss
    have hloop : findSessionServer st probe sid =
        findLoop st probe sid (st.servers.map (·.id)) := by
      unfold findSessionServer
      rw [hmapnone]
    obtain ⟨st', heq, _, _⟩ :=
      findLoop_skip_pre probe sid (st.servers.map (·.id)) st [] hnd hmiss
    rw [hloop, ← List.append_nil (st.servers.map (·.id)), heq]
    rfl

/-- Witness for C5's amended theorem: on the counterexample state, with
the empty prefix, the first backend's probe hit resolves `sess-x` to
`server-1` with `cached = false`. -/
theorem findSession_resolution_order_witness :
    (findSessionServer findCexState findCexProbe "sess-x").2 =
      some { serverId := "server-1", cached := false } :=
  ((findSession_resolution_order.2.1 findCexState findCexProbe "sess-x" []
      "server-1" ["server-2"] (initServer 0 "http://a" 100)
      rfl (by decide) rfl
      (fun y hy => absurd hy (List.not_mem_nil y))
      (by decide)).2
    [{ id := some "sess-x", sessionId := none }] (by decide) rfl rfl)

/-! ## C6 -/

/-- `Math.min` over a list of identical values. -/
lemma listMin_const : ∀ (vs : List Nat) (v : Nat), (∀ x ∈ vs, x = v) → listMin v vs = v
  | [], _, _ => rfl
  | w :: ws, v, h => by
      have hw : w = v := h w (List.mem_cons_self _ _)
      unfold listMin
      rw [List.foldl_cons, hw, Nat.min_self]
      exact listMin_const ws v (fun x hx => h x (List.mem_cons_of_mem _ hx))

lemma getD_map {α β : Type} (f : α → β) (l : List α) (d : α) (i : Nat) :
    (l.map f).getD i (f d) = f (l.getD i d) := by
  rcases Nat.lt_or_ge i l.length with hi | hi
  · rw [List.getD_eq_getElem?_getD, List.getD_eq_getElem?_getD,
      List.getElem?_eq_getElem (by simpa using hi), List.getElem?_eq_getElem hi,
      Option.getD_some, Option.getD_some, List.getElem_map]
  · rw [List.getD_eq_getElem?_getD, List.getD_eq_getElem?_getD,
      List.getElem?_eq_none (by simpa using hi), List.getElem?_eq_none hi,
      Option.getD_none, Option.getD_none]

/-- One tied selection step: with every active backend reporting the same
count `c < MAX`, the selection returns the active list's element at the
advanced round-robin cursor (the head when there is a single backend). -/
lemma select_step (servers : List Server) (counts : String → Option Nat) (cfg : Config)
    (rr : Nat) (c : Nat) (hd : Server) (tl : List Server)
    (hH : servers.filter (fun s => decide (s.status = .healthy) && s.isActive) = hd :: tl)
    (hc : ∀ s ∈ hd :: tl, counts s.id = some c)
    (hlt : c < cfg.maxSessionsPerServer) :
    selectOptimalServer servers counts cfg rr =
      .ok ((hd :: tl).getD ((rr + 1) % (hd :: tl).length) hd,
        if 1 < (hd :: tl).length then (rr + 1) % (hd :: tl).length else rr) := by
  unfold selectOptimalServer
  dsimp only
  rw [hH, if_neg (by simp)]
  have havail : ((hd :: tl).map (fun s => (s, counts s.id))).filter
      (fun p => match p.2 with
        | some c1 => decide (c1 < cfg.maxSessionsPerServer)
        | none => false) = (hd :: tl).map (fun s => (s, counts s.id)) := by
    rw [List.filter_eq_self]
    intro p hp
    obtain ⟨s, hs, rfl⟩ := List.mem_map.mp hp
    dsimp only
    rw [hc s hs]
    simp [hlt]
  rw [havail, List.map_cons]
  dsimp only
  have hmin : listMin ((counts hd.id).getD 0)
      ((tl.map (fun s => (s, counts s.id))).map (fun p => p.2.getD 0)) = c := by
    have h1 : (counts hd.id).getD 0 = c := by
      rw [hc hd (List.mem_cons_self _ _)]
      rfl
    rw [h1]
    apply listMin_const
    intro x hx
    obtain ⟨p, hp, rfl⟩ := List.mem_map.mp hx
    obtain ⟨s, hs, rfl⟩ := List.mem_map.mp hp
    dsimp only
    rw [hc s (List.mem_cons_of_mem _ hs)]
    rfl
  rw [hmin]
  have hleast : ((hd, counts hd.id) :: tl.map (fun s => (s, counts s.id))).filter
      (fun p => decide (p.2 = some c)) =
      (hd, counts hd.id) :: tl.map (fun s => (s, counts s.id)) := by
    rw [List.filter_eq_self]
    intro p hp
    rcases List.mem_cons.mp hp with h1 | h1
    · rw [h1]
      dsimp only
      rw [hc hd (List.mem_cons_self _ _)]
      simp
    · obtain ⟨s, hs, rfl⟩ := List.mem_map.mp h1
      dsimp only
      rw [hc s (List.mem_cons_of_mem _ hs)]
      simp
  rw [hleast]
  dsimp only
  have hlenmap : ((hd, counts hd.id) :: tl.map (fun s => (s, counts s.id))).length =
      (hd :: tl).length := by
    simp
  by_cases hK : 1 < (hd :: tl).length
  · rw [if_pos (by rw [hlenmap]; exact hK), if_pos hK, hlenmap]
    have hget : ((hd, counts hd.id) :: tl.map (fun s => (s, counts s.id))).getD
        ((rr + 1) % (hd :: tl).length) (hd, counts hd.id) =
        ((hd :: tl).getD ((rr + 1) % (hd :: tl).length) hd, counts
          ((hd :: tl).getD ((rr + 1) % (hd :: tl).length) hd).id) := by
      have := getD_map (fun s => (s, counts s.id)) (hd :: tl) hd ((rr + 1) % (hd :: tl).length)
      rw [List.map_cons] at this
      exact this
    rw [hget]
  · rw [if_neg (by rw [hlenmap]; exact hK), if_neg hK]
    have htl : tl = [] := by
      rcases tl with _ | ⟨w, ws⟩
      · rfl
      · exfalso
        exact hK (by simp)
    subst htl
    simp [Nat.mod_one]

/-- Equation of `selectRun` on a successor step. -/
lemma selectRun_succ (servers : List Server) (counts : String → Option Nat) (cfg : Config)
    (rr n : Nat) :
    selectRun servers counts cfg rr (n + 1) =
      match selectOptimalServer servers counts cfg rr with
      | .ok (srv, rr1) =>
          (srv :: (selectRun servers counts cfg rr1 n).1,
            (selectRun servers counts cfg rr1 n).2)
      | .error _ => ([], rr) := rfl

/-- Closed form of a run of tied selections: the i-th selection returns
the active list's element at index `(rr + 1 + i) mod K`. -/
lemma selectRun_formula (servers : List Server) (counts : String → Option Nat)
    (cfg : Config) (c : Nat) (hd : Server) (tl : List Server)
    (hH : servers.filter (fun s => decide (s.status = .healthy) && s.isActive) = hd :: tl)
    (hc : ∀ s ∈ hd :: tl, counts s.id = some c)
    (hlt : c < cfg.maxSessionsPerServer) :
    ∀ (n rr : Nat), (selectRun servers counts cfg rr n).1 =
      (List.range n).map
        (fun i => (hd :: tl).getD ((rr + 1 + i) % (hd :: tl).length) hd)
  | 0, rr => by simp [selectRun]
  | n + 1, rr => by
      rw [selectRun_succ, select_step servers counts cfg rr c hd tl hH hc hlt]
      dsimp only
      rw [selectRun_formula servers counts cfg c hd tl hH hc hlt n _]
      rw [List.range_succ_eq_map, List.map_cons, List.map_map]
      have hhead : (hd :: tl).getD ((rr + 1 + 0) % (hd :: tl).length) hd =
          (hd :: tl).getD ((rr + 1) % (hd :: tl).length) hd := by
        norm_num
      rw [hhead]
      refine congrArg _ ?_
      apply List.map_congr_left
      intro i _
      simp only [Function.comp]
      by_cases hK : 1 < (hd :: tl).length
      · rw [if_pos hK]
        have h1 : (rr + 1) % (hd :: tl).length + 1 + i =
            (rr + 1) % (hd :: tl).length + (1 + i) := by omega
        have h2 : rr + 1 + (1 + i) = rr + 1 + (i + 1) := by omega
        rw [h1, Nat.mod_add_mod, h2]
      · rw [if_neg hK]
        have hKone : (hd :: tl).length = 1 := by
          have := List.length_pos.mpr (List.cons_ne_nil hd tl)
          omega
        rw [hKone, Nat.mod_one, Nat.mod_one]

/-- C6: with the reachable-state `isActive` invariant, if the HEALTHY
backends all report the same session count `c < MAX_SESSIONS_PER_SERVER`
and no state changes between calls, then K consecutive selections (K the
number of HEALTHY backends) visit exactly the HEALTHY backends, each
exactly once — for any starting value of the round-robin cursor. -/
theorem selectRun_round_robin_fair (servers : List Server)
    (counts : String → Option Nat) (cfg : Config) (rr : Nat) (c : Nat)
    (hinv : ∀ s ∈ servers, s.isActive = decide (s.status = Status.healthy))
    (hne : servers.filter (fun s => decide (s.status = Status.healthy)) ≠ [])
    (hnd : (servers.filter (fun s => decide (s.status = Status.healthy))).Nodup)
    (hc : ∀ s ∈ servers.filter (fun s => decide (s.status = Status.healthy)),
      counts s.id = some c)
    (hlt : c < cfg.maxSessionsPerServer) :
    ((selectRun servers counts cfg rr
        (servers.filter (fun s => decide (s.status = Status.healthy))).length).1).Perm
      (servers.filter (fun s => decide (s.status = Status.healthy))) ∧
    (∀ s ∈ servers.filter (fun s => decide (s.status = Status.healthy)),
      ((selectRun servers counts cfg rr
        (servers.filter (fun s => decide (s.status = Status.healthy))).length).1).count
          s = 1) := by
  have hfilter : servers.filter (fun s => decide (s.status = .healthy) && s.isActive) =
      servers.filter (fun s => decide (s.status = Status.healthy)) := by
    apply List.filter_congr
    intro s hs
    rw [hinv s hs, Bool.and_self]
  obtain ⟨hd, tl, hcons⟩ := List.exists_cons_of_ne_nil hne
  have hH : servers.filter (fun s => decide (s.status = .healthy) && s.isActive) =
      hd :: tl := by rw [hfilter, hcons]
  have hc' : ∀ s ∈ hd :: tl, counts s.id = some c := by
    intro s hs
    exact hc s (by rw [hcons]; exact hs)
  have hform := selectRun_formula servers counts cfg c hd tl hH hc' hlt
    (hd :: tl).length rr
  have hrot : (selectRun servers counts cfg rr (hd :: tl).length).1 =
      (hd :: tl).rotate (rr + 1) := by
    rw [hform]
    apply List.ext_get
    · simp [List.length_rotate]
    · intro i h1 h2
      rw [List.get_map, List.get_range, List.get_rotate]
      have hmod : (rr + 1 + i) % (hd :: tl).length = (i + (rr + 1)) % (hd :: tl).length := by
        rw [Nat.add_comm (rr + 1) i]
      rw [List.getD_eq_getElem?_getD, hmod,
        List.getElem?_eq_getElem (Nat.mod_lt _ (by simp)), Option.getD_some]
      rfl
  have hperm : ((selectRun servers counts cfg rr (hd :: tl).length).1).Perm (hd :: tl) := by
    rw [hrot]
    exact List.rotate_perm (hd :: tl) (rr + 1)
  rw [hcons]
  refine ⟨hperm, ?_⟩
  intro s hs
  rw [hperm.count_eq]
  apply List.count_eq_one_of_mem
  · rw [← hcons]
    exact hnd
  · exact hs

/-- Witness for C6: both backends of the fresh registry are HEALTHY with
count 3, so 2 consecutive selections visit each exactly once. -/
theorem selectRun_round_robin_fair_witness :
    ((selectRun exampleState.servers (fun _ => some 3) {} 0
        (exampleState.servers.filter
          (fun s => decide (s.status = Status.healthy))).length).1).Perm
      (exampleState.servers.filter (fun s => decide (s.status = Status.healthy))) ∧
    (∀ s ∈ exampleState.servers.filter (fun s => decide (s.status = Status.healthy)),
      ((selectRun exampleState.servers (fun _ => some 3) {} 0
        (exampleState.servers.filter
          (fun s => decide (s.status = Status.healthy))).length).1).count s = 1) :=
  selectRun_round_robin_fair exampleState.servers (fun _ => some 3) {} 0 3
    (by decide) (by decide) (by decide) (fun s _ => rfl) (by decide)

end Gateway
